import Mathlib

/-!
Verification of the GeoChain core: the encrypted score ledger
(`contracts/GeoChainFHE.sol`) and the client-side operation coordinator
(`frontend/src/web3/hooks/useGeoChain.ts`), shallowly embedded.

Modelling conventions:
* Addresses, hashes and timestamps are natural numbers.
* An FHE handle for a `euint32` is represented by its cleartext semantics:
  `none` is the all-zero handle (an uninitialized mapping slot, nothing to
  decrypt), `some v` is a non-zero ciphertext handle whose decryption is `v`.
  `FHE.add` on `euint32` is modular addition, hence `% 2 ^ 32`.
* The contract updates `PlayerStats` inside an `unchecked` block, hence
  `% 2 ^ 256` on those fields.
* Reverting calls leave contract storage unchanged; they are modelled by
  `Except.error` results, and a reverted transaction in a trace is a no-op.
* The hook's suspending calls (`getEncryptedTotalScore`, `loadOrSign`,
  `userDecrypt`, `encrypt`, transaction send/wait) are parameterised by their
  outcomes, and the hook's context (`chainId` / contract address / signer) at
  each resumption point is passed explicitly, so that staleness behaviour is
  a pure function of those parameters.
-/

namespace GeoChain

/-- Ethereum addresses, modelled as natural numbers. -/
abbrev Addr := Nat

/-- The modulus of `euint32` / `uint32` arithmetic. -/
def U32 : Nat := 2 ^ 32

/-- The modulus of `uint256` arithmetic inside the contract's `unchecked` block. -/
def U256 : Nat := 2 ^ 256

/-- An FHE handle for a `euint32`, by its cleartext semantics: `none` is the
all-zero handle (default mapping value, nothing to decrypt), `some v` a
non-zero ciphertext handle decrypting to `v`. -/
abbrev FHEHandle := Option Nat

/-- `PlayerStats` struct of `GeoChainFHE.sol` (lines 21-26). -/
structure PlayerStats where
  numGames : Nat
  totalPublicScore : Nat
  maxSinglePublicScore : Nat
  lastPlayedAt : Nat
  deriving DecidableEq, Repr

/-- Default (all-zero) `PlayerStats`, the Solidity mapping default. -/
def PlayerStats.empty : PlayerStats :=
  { numGames := 0, totalPublicScore := 0, maxSinglePublicScore := 0, lastPlayedAt := 0 }

/-- Events emitted by `GeoChainFHE.sol`. -/
inductive LedgerEvent where
  | resultSubmitted (id : Nat) (player : Addr) (resultHash : Nat) (resultCID : String)
      (scorePublic : Nat) (timestamp : Nat)
  | badgeClaimed (player : Addr) (badgeId : Nat) (timestamp : Nat)
  | questionPoolUpdated (poolCID : String) (version : Nat)
  deriving DecidableEq, Repr

/-- Storage of `GeoChainFHE.sol` plus the emitted event log. -/
structure LedgerState where
  nextResultId : Nat
  encryptedTotalScoreByPlayer : Addr → FHEHandle
  encryptedScoreByResultId : Nat → FHEHandle
  playerStats : Addr → PlayerStats
  badgeClaimed : Nat → Addr → Bool
  events : List LedgerEvent

/-- Deployment state: `nextResultId = 1`, all mappings at their defaults. -/
def LedgerState.init : LedgerState :=
  { nextResultId := 1
    encryptedTotalScoreByPlayer := fun _ => none
    encryptedScoreByResultId := fun _ => none
    playerStats := fun _ => PlayerStats.empty
    badgeClaimed := fun _ _ => false
    events := [] }

/-- `submitResult` (GeoChainFHE.sol lines 70-114), successful execution: the
caller is `sender`, `score` is the cleartext of the external encrypted input
(`createEncryptedInput`/`add32` makes it 32-bit, hence `% U32`), `scorePublic`
is the `uint32` argument. An invalid `inputProof` makes `FHE.fromExternal`
revert, leaving storage unchanged; that case is modelled by the transaction
not occurring.  `FHE.add` on the default (all-zero) handle behaves as addition
to an encrypted zero, which is the contract's lazy initialisation. -/
def submitResult (sender : Addr) (score : Nat) (resultHash : Nat) (resultCID : String)
    (scorePublic : Nat) (now : Nat) (st : LedgerState) : Nat × LedgerState :=
  let score32 := score % U32
  let pub32 := scorePublic % U32
  let newTotal := ((st.encryptedTotalScoreByPlayer sender).getD 0 + score32) % U32
  let resultId := st.nextResultId
  let s := st.playerStats sender
  let s' : PlayerStats :=
    { numGames := (s.numGames + 1) % U256
      totalPublicScore := (s.totalPublicScore + pub32) % U256
      maxSinglePublicScore := if pub32 > s.maxSinglePublicScore then pub32 else s.maxSinglePublicScore
      lastPlayedAt := now }
  (resultId,
    { nextResultId := st.nextResultId + 1
      encryptedTotalScoreByPlayer := fun a =>
        if a = sender then some newTotal else st.encryptedTotalScoreByPlayer a
      encryptedScoreByResultId := fun i =>
        if i = resultId then some score32 else st.encryptedScoreByResultId i
      playerStats := fun a => if a = sender then s' else st.playerStats a
      badgeClaimed := st.badgeClaimed
      events := st.events ++
        [LedgerEvent.resultSubmitted resultId sender resultHash resultCID pub32 now] })

/-- `getEncryptedTotalScore` (lines 120-122): the raw handle, all-zero
(`none`) for an account whose aggregate was never initialised. -/
def getEncryptedTotalScore (st : LedgerState) (player : Addr) : FHEHandle :=
  st.encryptedTotalScoreByPlayer player

/-- `getEncryptedResultScore` (lines 134-136). -/
def getEncryptedResultScore (st : LedgerState) (id : Nat) : FHEHandle :=
  st.encryptedScoreByResultId id

/-- `getPlayerStats` (lines 141-149). -/
def getPlayerStats (st : LedgerState) (player : Addr) : PlayerStats :=
  st.playerStats player

/-- Revert reasons of `claimBadge`. -/
inductive ClaimError where
  | alreadyClaimed
  | unknownBadge
  | conditionsNotMet
  deriving DecidableEq, Repr

/-- Solidity `1 days` in seconds. -/
def secondsPerDay : Nat := 86400

/-- The badge predicate dispatch of `claimBadge` (lines 165-179): `none`
for an unrecognised id (the `revert` branch), otherwise the `ok` boolean. -/
def badgeEligible (badgeId : Nat) (s : PlayerStats) (now : Nat) : Option Bool :=
  if badgeId = 1 then some (decide (s.numGames ≥ 1))
  else if badgeId = 2 then some (decide (s.totalPublicScore ≥ 10))
  else if badgeId = 3 then some (decide (s.maxSinglePublicScore ≥ 20))
  else if badgeId = 4 then
    some (decide (s.numGames ≥ 3) && decide (s.lastPlayedAt + 7 * secondsPerDay ≥ now))
  else if badgeId = 5 then some (decide (s.lastPlayedAt + 1 * secondsPerDay ≥ now))
  else if badgeId = 6 then some (decide (s.numGames ≥ 10))
  else none

/-- `claimBadge` (lines 161-183): guards in source order (`AlreadyClaimed`,
then the id dispatch with `UnknownBadge`, then `ConditionsNotMet`); on
success sets the claim bit and appends a `BadgeClaimed` event.  An
`Except.error` models a revert: storage is unchanged. -/
def claimBadge (badgeId : Nat) (sender : Addr) (now : Nat) (st : LedgerState) :
    Except ClaimError LedgerState :=
  if st.badgeClaimed badgeId sender then Except.error ClaimError.alreadyClaimed
  else
    match badgeEligible badgeId (st.playerStats sender) now with
    | none => Except.error ClaimError.unknownBadge
    | some ok =>
      if ok then
        Except.ok
          { st with
            badgeClaimed := fun b a =>
              if b = badgeId ∧ a = sender then true else st.badgeClaimed b a
            events := st.events ++ [LedgerEvent.badgeClaimed sender badgeId now] }
      else Except.error ClaimError.conditionsNotMet

/-- `updateQuestionPool` (lines 189-191): only emits `QuestionPoolUpdated`;
`caller` records `msg.sender`, which the function never reads (no access
control). -/
def updateQuestionPool (caller : Addr) (poolCID : String) (version : Nat)
    (st : LedgerState) : LedgerState :=
  { st with events := st.events ++ [LedgerEvent.questionPoolUpdated poolCID version] }

/-- One ledger transaction, for trace reasoning. -/
inductive LedgerOp where
  | submit (sender : Addr) (score : Nat) (resultHash : Nat) (resultCID : String)
      (scorePublic : Nat) (now : Nat)
  | claim (sender : Addr) (badgeId : Nat) (now : Nat)
  | updatePool (caller : Addr) (poolCID : String) (version : Nat)

/-- The sender of a `submit` transaction, `none` for the other operations. -/
def LedgerOp.submitter : LedgerOp → Option Addr
  | LedgerOp.submit s _ _ _ _ _ => some s
  | _ => none

/-- Effect of one transaction on storage; a reverting `claimBadge` leaves the
state unchanged (Solidity revert semantics). -/
def LedgerState.step (st : LedgerState) : LedgerOp → LedgerState
  | LedgerOp.submit s sc rh rc sp now => (submitResult s sc rh rc sp now st).2
  | LedgerOp.claim s b now =>
    match claimBadge b s now st with
    | Except.ok st' => st'
    | Except.error _ => st
  | LedgerOp.updatePool c cid v => updateQuestionPool c cid v st

/-- Execution of a transaction trace. -/
def LedgerState.exec (st : LedgerState) (ops : List LedgerOp) : LedgerState :=
  ops.foldl LedgerState.step st

/-- One submission's arguments, for sequences of submissions by one player. -/
structure SubmitPayload where
  score : Nat
  resultHash : Nat
  resultCID : String
  scorePublic : Nat
  now : Nat
  deriving DecidableEq, Repr

/-- A sequence of successful `submitResult` calls by `sender`. -/
def submitSeq (sender : Addr) (ps : List SubmitPayload) (st : LedgerState) : LedgerState :=
  ps.foldl
    (fun s p => (submitResult sender p.score p.resultHash p.resultCID p.scorePublic p.now s).2)
    st

/-! ### The client-side operation coordinator (`useGeoChain.ts`) -/

/-- The hook's context at one instant: resolved contract entry (`contract`
memo / `geoRef`), chain id, signer address (`ethersSigner`), availability of
the read-only provider and of the FHEVM `instance`, and `Date.now()` in
milliseconds. -/
structure Env where
  chainId : Option Nat
  contractAddress : Option Addr
  signerAddress : Option Addr
  hasReadonlyProvider : Bool
  hasInstance : Bool
  now : Nat
  deriving DecidableEq, Repr

/-- Client-local mutable state of the hook: the React states
(`message`, `handle`, `clear`, `isRefreshing`, `isDecrypting`,
`isSubmitting`, `lastTxHash`) with each boolean React state and its twin ref
collapsed into one field (the source always writes them together), and the
throttle refs.  The source's `lastRefreshKeyRef` is the string
`addr + ":" + signerAddr`, modelled as the pair (`none` for the initial empty
string, which matches no key). -/
structure CoordState where
  message : String
  handle : Option FHEHandle
  clear : Option Nat
  isRefreshing : Bool
  isDecrypting : Bool
  isSubmitting : Bool
  lastTxHash : Option String
  lastRefreshKey : Option (Addr × Addr)
  lastRefreshAt : Nat
  deriving DecidableEq, Repr

/-- Initial hook state. -/
def CoordState.init : CoordState :=
  { message := "", handle := none, clear := none, isRefreshing := false,
    isDecrypting := false, isSubmitting := false, lastTxHash := none,
    lastRefreshKey := none, lastRefreshAt := 0 }

/-- Message set when refresh finds the connection incomplete (line 81). -/
def msgIncomplete : String := "连接信息不完整，无法查询密文"

/-- Message set after a refresh that returned the all-zero handle (line 120). -/
def msgNoHandleAfterRefresh : String := "未检测到你的密文分数，请先完成一次上链或稍后刷新"

/-- Message set after a refresh that returned a usable handle (line 122). -/
def msgRefreshed : String := "密文已刷新，可以解密"

/-- Message set when the refresh read rejects (line 128). -/
def msgRefreshFailed (e : String) : String := "刷新失败: " ++ e

/-- Message set when a decrypt finds another decrypt in flight (line 189). -/
def msgDecryptInProgress : String := "解密进行中，请稍候"

/-- Message set when a decrypt finds the FHEVM or signer missing (line 193). -/
def msgNotReadyDecrypt : String := "FHEVM 或签名器未就绪，请先连接钱包并等待加载"

/-- Message set when a decrypt finds no usable handle (line 197). -/
def msgNoCiphertext : String := "未检测到可解密的密文，请先完成一次上链或点击【刷新密文】。"

/-- Message set when a decrypt starts (line 208). -/
def msgDecryptStart : String := "开始解密..."

/-- Message set when `loadOrSign` returns no signature (line 226). -/
def msgNoSig : String := "无法生成解密签名"

/-- Message on the staleness check after signing (line 229). -/
def msgStaleDecryptRequest : String := "忽略过期解密请求"

/-- Message on the staleness check after `userDecrypt` (line 244). -/
def msgStaleDecryptResult : String := "忽略过期解密结果"

/-- Message set on decrypt success (line 249). -/
def msgDecryptDone : String := "解密完成"

/-- Message set in decrypt's catch (line 251). -/
def msgDecryptFailed (e : String) : String := "解密失败：" ++ e

/-- Message set once the submit lock is taken (line 317). -/
def msgPrepareEncrypt : String := "准备加密分数..."

/-- Error thrown when a submit finds its context stale (line 334). -/
def msgSubmitStaleError : String := "链或签名器已切换，提交已取消"

/-- Message set while waiting for confirmation (line 344). -/
def msgWaitConfirm (txHash : String) : String := "等待确认：" ++ txHash

/-- Message set when the transaction is confirmed (line 347). -/
def msgSubmitDone (status : String) : String := "提交完成，status=" ++ status

/-- Message set in submit's catch (line 351). -/
def msgSubmitFailed (e : String) : String := "提交失败：" ++ e

/-- Throttle window of `refreshEncryptedTotal`, in milliseconds (line 93). -/
def refreshThrottleMs : Nat := 2000

/-- Result of the synchronous prefix of `refreshEncryptedTotal`:
`busy` = entry guard (`isRefreshingRef` set) returned immediately,
`notReady` = missing contract / provider / signer, `throttled` = skipped by
the 2 s window, `reading` = a `getEncryptedTotalScore` read was issued,
carrying the captured context (`thisChainId`, `thisAddress`, the signer whose
total is read). -/
inductive RefreshStart where
  | busy
  | notReady
  | throttled
  | reading (chainId : Option Nat) (addr : Addr) (signer : Addr)
  deriving DecidableEq, Repr

/-- Synchronous prefix of `refreshEncryptedTotal` (lines 77-105): entry
guard, lock acquisition, throttle bookkeeping, and the decision to issue the
ledger read.  Exactly one ledger read corresponds to each `reading` result. -/
def refreshStart (env : Env) (st : CoordState) : RefreshStart × CoordState :=
  if st.isRefreshing then (RefreshStart.busy, st)
  else
    match env.contractAddress, env.signerAddress with
    | some addr, some signer =>
      if env.hasReadonlyProvider = false then
        (RefreshStart.notReady, { st with handle := none, message := msgIncomplete })
      else
        if st.lastRefreshKey = some (addr, signer) ∧
            env.now - st.lastRefreshAt < refreshThrottleMs then
          (RefreshStart.throttled, { st with isRefreshing := false })
        else
          (RefreshStart.reading env.chainId addr signer,
            { st with
              isRefreshing := true,
              lastRefreshKey := some (addr, signer),
              lastRefreshAt := env.now })
    | _, _ => (RefreshStart.notReady, { st with handle := none, message := msgIncomplete })

/-- Completion of the read issued by `refreshEncryptedTotal`
(lines 105-134): `cur` is the hook's context when the promise settles;
the staleness check (line 114) compares only the chain id and the contract
address — the source has no signer comparison here.  `Except.ok` carries the
returned handle (`none` = the all-zero handle, matching `/^0x0+$/`); the
catch branch only sets the error message; the finally branch releases the
refresh lock. -/
def refreshComplete (cur : Env) (thisChainId : Option Nat) (thisAddress : Addr)
    (result : Except String FHEHandle) (st : CoordState) : CoordState :=
  let st1 :=
    match result with
    | Except.ok value =>
      if cur.chainId = thisChainId ∧ cur.contractAddress = some thisAddress then
        { st with
          handle := some value,
          clear := none,
          message := if value = none then msgNoHandleAfterRefresh else msgRefreshed }
      else st
    | Except.error e => { st with message := msgRefreshFailed e }
  { st1 with isRefreshing := false }

/-- Poll interval of decrypt's wait-for-refresh, in milliseconds (line 177). -/
def decryptPollIntervalMs : Nat := 100

/-- Timeout of decrypt's wait-for-refresh, in milliseconds (line 183). -/
def decryptWaitTimeoutMs : Nat := 10000

/-- Number of polls performed by decrypt's wait-for-refresh loop
(lines 166-186): `refreshingAt k` is the value of `isRefreshingRef` at the
k-th poll; the loop stops at the first clear poll, or after `fuel` polls
(the timeout fires and resolves regardless of the refresh). -/
def waitPolls (refreshingAt : Nat → Bool) : Nat → Nat
  | 0 => 0
  | fuel + 1 =>
    if refreshingAt 0 then 1 + waitPolls (fun k => refreshingAt (k + 1)) fuel else 0

/-- Result of decrypt's entry guards: only `proceed` goes on to request a
decryption capability from the signer; it carries the captured context and
handle. -/
inductive DecryptEntry where
  | alreadyInProgress
  | notReady
  | noCiphertext
  | proceed (chainId : Option Nat) (addr : Addr) (handle : FHEHandle) (signer : Addr)
  deriving DecidableEq, Repr

/-- Entry guards of `decryptEncryptedTotal` after the optional
wait-for-refresh (lines 188-208), in source order: `isDecryptingRef`, then
contract / instance / signer availability, then the usable-handle check
(`handle` unset, or matching `/^0x0+$/`).  None of the guards reads
`isRefreshing`.  On `proceed` the decrypt lock is taken. -/
def decryptGuards (env : Env) (st : CoordState) : DecryptEntry × CoordState :=
  if st.isDecrypting then
    (DecryptEntry.alreadyInProgress, { st with message := msgDecryptInProgress })
  else
    match env.contractAddress, env.signerAddress with
    | some addr, some signer =>
      if env.hasInstance = false then
        (DecryptEntry.notReady, { st with message := msgNotReadyDecrypt })
      else
        match st.handle with
        | none => (DecryptEntry.noCiphertext, { st with message := msgNoCiphertext })
        | some h =>
          if h = none then
            (DecryptEntry.noCiphertext, { st with message := msgNoCiphertext })
          else
            (DecryptEntry.proceed env.chainId addr h signer,
              { st with isDecrypting := true, message := msgDecryptStart })
    | _, _ => (DecryptEntry.notReady, { st with message := msgNotReadyDecrypt })

/-- The `isStale` closure shared by decrypt (lines 211-214) and submit
(lines 320-323): captured contract address, chain id and signer against the
current context. -/
def isStaleCtx (thisChainId : Option Nat) (thisAddress thisSigner : Addr) (cur : Env) : Bool :=
  decide (cur.contractAddress ≠ some thisAddress) || decide (cur.chainId ≠ thisChainId) ||
    decide (cur.signerAddress ≠ some thisSigner)

/-- Body of `decryptEncryptedTotal`'s `run` (lines 210-257), entered after
`decryptGuards` returned `proceed`.  `sigResult` is the outcome of
`FhevmDecryptionSignature.loadOrSign` (`Except.ok false` = it returned
`null`, `Except.error` = it threw); `decResult` is the outcome of
`instance.userDecrypt` at the captured handle; `envAfterSign` /
`envAfterDecrypt` are the hook's contexts when each await settles.  The
finally branch releases the decrypt lock in every path. -/
def decryptRun (thisChainId : Option Nat) (thisAddress thisSigner : Addr)
    (envAfterSign envAfterDecrypt : Env)
    (sigResult : Except String Bool) (decResult : Except String Nat)
    (st : CoordState) : CoordState :=
  let st1 :=
    match sigResult with
    | Except.error e => { st with message := msgDecryptFailed e }
    | Except.ok false => { st with message := msgNoSig }
    | Except.ok true =>
      if isStaleCtx thisChainId thisAddress thisSigner envAfterSign then
        { st with message := msgStaleDecryptRequest }
      else
        match decResult with
        | Except.error e => { st with message := msgDecryptFailed e }
        | Except.ok value =>
          if isStaleCtx thisChainId thisAddress thisSigner envAfterDecrypt then
            { st with message := msgStaleDecryptResult }
          else
            { st with clear := some value, message := msgDecryptDone }
  { st1 with isDecrypting := false }

/-- Failure modes of `submitCore`. -/
inductive SubmitError where
  | alreadyInProgress
  | notReady
  | encryptFailed (e : String)
  | staleCancelled
  | txFailed (e : String)
  deriving DecidableEq, Repr

/-- `submitCore` (lines 303-358), with the suspending steps parameterised:
`encResult` is `input.encrypt()`, `envAfterEncrypt` the context at its
completion (where `isStale` is evaluated), `txResult` the transaction send
(`c.submitResult`, carrying the tx hash), `waitResult` the confirmation
(`tx.wait`, carrying the receipt status), and `envAtEnd` the context when the
fire-and-forget `refreshEncryptedTotal()` runs on success.  The two entry
guards throw before the submit lock is taken; afterwards the finally branch
releases the lock in every path. -/
def submitCore (env envAfterEncrypt envAtEnd : Env)
    (encResult : Except String Unit) (txResult : Except String String)
    (waitResult : Except String Nat) (st : CoordState) :
    Except SubmitError String × CoordState :=
  if st.isRefreshing ∨ st.isSubmitting then
    (Except.error SubmitError.alreadyInProgress, st)
  else
    match env.contractAddress, env.signerAddress with
    | some addr, some signer =>
      if env.hasInstance = false then (Except.error SubmitError.notReady, st)
      else
        let thisChainId := env.chainId
        let st1 := { st with isSubmitting := true, message := msgPrepareEncrypt }
        match encResult with
        | Except.error e =>
          (Except.error (SubmitError.encryptFailed e),
            { st1 with message := msgSubmitFailed e, isSubmitting := false })
        | Except.ok _ =>
          if isStaleCtx thisChainId addr signer envAfterEncrypt then
            (Except.error SubmitError.staleCancelled,
              { st1 with message := msgSubmitFailed msgSubmitStaleError, isSubmitting := false })
          else
            match txResult with
            | Except.error e =>
              (Except.error (SubmitError.txFailed e),
                { st1 with message := msgSubmitFailed e, isSubmitting := false })
            | Except.ok txHash =>
              let st2 := { st1 with message := msgWaitConfirm txHash, lastTxHash := some txHash }
              match waitResult with
              | Except.error e =>
                (Except.error (SubmitError.txFailed e),
                  { st2 with message := msgSubmitFailed e, isSubmitting := false })
              | Except.ok status =>
                let st3 := { st2 with message := msgSubmitDone (toString status) }
                let st4 := (refreshStart envAtEnd st3).2
                (Except.ok txHash, { st4 with isSubmitting := false })
    | _, _ => (Except.error SubmitError.notReady, st)

/-- Failure modes of `decryptHandle`. -/
inductive HandleError where
  | notReady
  | noSignature
  | failed (e : String)
  deriving DecidableEq, Repr

/-- `decryptHandle` (lines 261-290): readiness check (thrown as an error),
then unconditionally `loadOrSign` (no lock flag, no staleness re-check, no
zero-handle check), then `userDecrypt` on `handleToDecrypt`, returning
`res[handleToDecrypt]`.  The second component of the first result records
whether a decryption capability was requested (`loadOrSign` reached); the
hook state is threaded through to make the frame property explicit — the
source function touches none of it. -/
def decryptHandle (env : Env) (handleToDecrypt : FHEHandle)
    (sigResult : Except String Bool) (decResult : Except String Nat)
    (st : CoordState) : (Except HandleError Nat × Bool) × CoordState :=
  match env.contractAddress, env.signerAddress with
  | some _, some _ =>
    if env.hasInstance = false then ((Except.error HandleError.notReady, false), st)
    else
      match sigResult with
      | Except.error e => ((Except.error (HandleError.failed e), true), st)
      | Except.ok false => ((Except.error HandleError.noSignature, true), st)
      | Except.ok true =>
        match decResult with
        | Except.error e => ((Except.error (HandleError.failed e), true), st)
        | Except.ok v => ((Except.ok v, true), st)
  | _, _ => ((Except.error HandleError.notReady, false), st)

/-! ### Concrete fixtures used by witnesses -/

/-- A submission with public score 12 (eligible for badges 1 and 2). -/
def wPayload : SubmitPayload :=
  { score := 5, resultHash := 77, resultCID := "cid", scorePublic := 12, now := 100 }

/-- Ledger after one submission by player 5. -/
def wStFresh : LedgerState := submitSeq 5 [wPayload] LedgerState.init

/-- Ledger after player 5 then claims badge 1. -/
def wStClaimed : LedgerState := wStFresh.step (LedgerOp.claim 5 1 100)

/-- A submission whose encrypted score is 2^31. -/
def wBigPayload : SubmitPayload :=
  { score := 2 ^ 31, resultHash := 0, resultCID := "cid", scorePublic := 0, now := 1 }

/-- A ledger state where player 5 has 3 games, last played at time 0. -/
def wStats4 : LedgerState :=
  { LedgerState.init with
    playerStats := fun a =>
      if a = 5 then
        { numGames := 3, totalPublicScore := 0, maxSinglePublicScore := 0, lastPlayedAt := 0 }
      else PlayerStats.empty }

/-- A ready hook context at time 0. -/
def wEnv0 : Env :=
  { chainId := some 31337, contractAddress := some 10, signerAddress := some 20,
    hasReadonlyProvider := true, hasInstance := true, now := 0 }

/-- The same context 1500 ms later (inside the 2000 ms throttle window). -/
def wEnvLater : Env := { wEnv0 with now := 1500 }

/-- The same context 500 ms later, but with the signer switched to 21. -/
def wEnvSignerChanged : Env := { wEnv0 with signerAddress := some 21, now := 500 }

/-- A quiescent hook state holding a decrypted handle for the old signer. -/
def wSt0 : CoordState := { CoordState.init with handle := some (some 5), clear := some 5 }

/-- Hook state right after a refresh read was issued from `wEnv0`/`wSt0`. -/
def wStReading : CoordState := (refreshStart wEnv0 wSt0).2

/-- Hook state after that read completed under an unchanged context. -/
def wStDone : CoordState :=
  refreshComplete wEnv0 (some 31337) 10 (Except.ok (some 9)) wStReading

/-- A quiescent hook state holding the all-zero handle. -/
def wStZero : CoordState := { wSt0 with handle := some none, clear := none }

/-- A trace with no submission by player 5 (a submission by player 2, a badge
claim, a question-pool update). -/
def wOpsNo5 : List LedgerOp :=
  [LedgerOp.submit 2 3 0 "cid" 3 50, LedgerOp.claim 2 1 60, LedgerOp.updatePool 9 "p" 1]

/-! ### Ledger helper lemmas -/

/-- Inversion of a successful `claimBadge`: the guard order forces the claim
bit to have been false, the badge predicate to have held, and the resulting
state is the input state with just the claim bit set and the event appended. -/
theorem claimBadge_ok_inv {badgeId : Nat} {sender : Addr} {now : Nat}
    {st st' : LedgerState} (h : claimBadge badgeId sender now st = Except.ok st') :
    st.badgeClaimed badgeId sender = false ∧
    badgeEligible badgeId (st.playerStats sender) now = some true ∧
    st' = { st with
            badgeClaimed := fun b a =>
              if b = badgeId ∧ a = sender then true else st.badgeClaimed b a,
            events := st.events ++ [LedgerEvent.badgeClaimed sender badgeId now] } := by
  unfold claimBadge at h
  by_cases hc : st.badgeClaimed badgeId sender
  · simp [hc] at h
  · cases he : badgeEligible badgeId (st.playerStats sender) now with
    | none => rw [he] at h; simp [hc] at h
    | some ok =>
      rw [he] at h
      cases ok with
      | false => simp [hc] at h
      | true =>
        simp [hc] at h
        refine ⟨by simpa using hc, rfl, ?_⟩
        rw [← h]
        congr 1
        funext b a
        by_cases hb : b = badgeId
        · by_cases ha : a = sender
          · simp [hb, ha]
          · simp [hb, ha]
        · simp [hb]

/-- A successful `claimBadge` leaves every other claim bit as it was, and a
set bit stays set. -/
theorem claimBadge_ok_claim_monotone {badgeId : Nat} {sender : Addr} {now : Nat}
    {st st' : LedgerState} (h : claimBadge badgeId sender now st = Except.ok st')
    {b : Nat} {a : Addr} (hba : st.badgeClaimed b a = true) :
    st'.badgeClaimed b a = true := by
  obtain ⟨-, -, hst⟩ := claimBadge_ok_inv h
  subst hst
  by_cases hb : b = badgeId ∧ a = sender <;> simp [hb, hba]

/-- One ledger transaction never clears a set claim bit. -/
theorem step_preserves_badgeClaimed {st : LedgerState} {op : LedgerOp} {b : Nat} {a : Addr}
    (h : st.badgeClaimed b a = true) : (st.step op).badgeClaimed b a = true := by
  cases op with
  | submit s sc rh rc sp now => simpa [LedgerState.step, submitResult] using h
  | claim s bid now =>
    simp only [LedgerState.step]
    cases hcb : claimBadge bid s now st with
    | ok st' => exact claimBadge_ok_claim_monotone hcb h
    | error e => exact h
  | updatePool c cid v => simpa [LedgerState.step, updateQuestionPool] using h

/-- No trace of ledger transactions clears a set claim bit. -/
theorem exec_preserves_badgeClaimed {b : Nat} {a : Addr} :
    ∀ (ops : List LedgerOp) (st : LedgerState), st.badgeClaimed b a = true →
      (st.exec ops).badgeClaimed b a = true := by
  intro ops
  induction ops with
  | nil => intro st h; simpa [LedgerState.exec] using h
  | cons op rest ih =>
    intro st h
    have hfold : st.exec (op :: rest) = (st.step op).exec rest := by
      simp [LedgerState.exec, List.foldl]
    rw [hfold]
    exact ih _ (step_preserves_badgeClaimed h)

/-- A `submitResult` transaction does not touch the claim map. -/
theorem submitResult_badgeClaimed (s : Addr) (sc rh : Nat) (rc : String) (sp now : Nat)
    (st : LedgerState) :
    ((submitResult s sc rh rc sp now st).2).badgeClaimed = st.badgeClaimed := by
  simp [submitResult]

/-- Running totals and game counts of a submission sequence by `p`, from any
state where `p`'s aggregate is an initialised ciphertext. -/
theorem submitSeq_totals (p : Addr) (ps : List SubmitPayload) :
    ∀ (st : LedgerState) (t g : Nat),
      st.encryptedTotalScoreByPlayer p = some t → t < U32 →
      (st.playerStats p).numGames = g → g < U256 →
      (submitSeq p ps st).encryptedTotalScoreByPlayer p =
        some ((t + (ps.map (fun q => q.score % U32)).sum) % U32) ∧
      ((submitSeq p ps st).playerStats p).numGames = (g + ps.length) % U256 := by
  induction ps with
  | nil =>
    intro st t g ht hlt hg hglt
    simp [submitSeq, ht, hg, Nat.mod_eq_of_lt hlt, Nat.mod_eq_of_lt hglt]
  | cons q qs ih =>
    intro st t g ht hlt hg hglt
    have hstep : submitSeq p (q :: qs) st =
        submitSeq p qs (submitResult p q.score q.resultHash q.resultCID q.scorePublic q.now st).2 := by
      simp [submitSeq, List.foldl]
    rw [hstep]
    have hU32 : 0 < U32 := by norm_num [U32]
    have hU256 : 0 < U256 := by norm_num [U256]
    have ht' : ((submitResult p q.score q.resultHash q.resultCID q.scorePublic q.now st).2).encryptedTotalScoreByPlayer p
        = some ((t + q.score % U32) % U32) := by
      simp [submitResult, ht]
    have hg' : (((submitResult p q.score q.resultHash q.resultCID q.scorePublic q.now st).2).playerStats p).numGames
        = (g + 1) % U256 := by
      simp [submitResult, hg]
    obtain ⟨h1, h2⟩ := ih _ ((t + q.score % U32) % U32) ((g + 1) % U256) ht'
      (Nat.mod_lt _ hU32) hg' (Nat.mod_lt _ hU256)
    constructor
    · rw [h1, Nat.mod_add_mod, List.map_cons, List.sum_cons, add_assoc]
    · rw [h2, Nat.mod_add_mod, List.length_cons, add_assoc, add_comm 1 qs.length]

/-- If no transaction of a trace is a submission by `a`, the trace leaves
`a`'s aggregate slot untouched. -/
theorem exec_no_submit_total {a : Addr} :
    ∀ (ops : List LedgerOp) (st : LedgerState),
      (∀ op ∈ ops, op.submitter ≠ some a) →
      st.encryptedTotalScoreByPlayer a = none →
      (st.exec ops).encryptedTotalScoreByPlayer a = none := by
  intro ops
  induction ops with
  | nil => intro st _ h0; simpa [LedgerState.exec] using h0
  | cons op rest ih =>
    intro st hops h0
    have hfold : st.exec (op :: rest) = (st.step op).exec rest := by
      simp [LedgerState.exec, List.foldl]
    rw [hfold]
    refine ih _ (fun o ho => hops o (List.mem_cons_of_mem op ho)) ?_
    cases op with
    | submit s sc rh rc sp now =>
      have hs : ¬a = s := by
        intro hsa
        exact hops _ (List.mem_cons_self _ _) (by simp [LedgerOp.submitter, hsa])
      simp [LedgerState.step, submitResult, h0, hs]
    | claim s bid now =>
      simp only [LedgerState.step]
      cases hcb : claimBadge bid s now st with
      | ok st' =>
        obtain ⟨-, -, hst⟩ := claimBadge_ok_inv hcb
        subst hst
        exact h0
      | error e => exact h0
    | updatePool c cid v => simpa [LedgerState.step, updateQuestionPool] using h0

/-! ### Coordinator helper lemmas -/

/-- Inversion of a refresh call that issued a ledger read: the lock was free,
context pieces were available, the throttle did not fire, and the resulting
state took the lock and recorded the throttle key and time. -/
theorem refreshStart_reading_inv {env : Env} {st : CoordState} {tc : Option Nat}
    {ta ts : Addr} {st1 : CoordState}
    (h : refreshStart env st = (RefreshStart.reading tc ta ts, st1)) :
    st.isRefreshing = false ∧ env.contractAddress = some ta ∧
    env.signerAddress = some ts ∧ tc = env.chainId ∧
    env.hasReadonlyProvider = true ∧
    st1 = { st with
            isRefreshing := true,
            lastRefreshKey := some (ta, ts),
            lastRefreshAt := env.now } := by
  unfold refreshStart at h
  by_cases hr : st.isRefreshing = true
  · rw [if_pos hr] at h
    simp at h
  · rw [if_neg hr] at h
    cases hca : env.contractAddress with
    | none =>
      cases hsa : env.signerAddress with
      | none => simp only [hca, hsa] at h; simp at h
      | some s => simp only [hca, hsa] at h; simp at h
    | some addr =>
      cases hsa : env.signerAddress with
      | none => simp only [hca, hsa] at h; simp at h
      | some s =>
        simp only [hca, hsa] at h
        by_cases hp : env.hasReadonlyProvider = false
        · rw [if_pos hp] at h; simp at h
        · rw [if_neg hp] at h
          by_cases hth : st.lastRefreshKey = some (addr, s) ∧
              env.now - st.lastRefreshAt < refreshThrottleMs
          · rw [if_pos hth] at h; simp at h
          · rw [if_neg hth] at h
            simp only [Prod.mk.injEq, RefreshStart.reading.injEq] at h
            obtain ⟨⟨hc1, hc2, hc3⟩, hc4⟩ := h
            subst hc2; subst hc3
            refine ⟨by simpa using hr, rfl, rfl, hc1.symm, ?_, hc4.symm⟩
            cases hpe : env.hasReadonlyProvider with
            | false => exact absurd hpe hp
            | true => rfl

/-- Refresh completion releases the lock and never touches the throttle
bookkeeping or the submit/decrypt locks. -/
theorem refreshComplete_locks (cur : Env) (tc : Option Nat) (ta : Addr)
    (r : Except String FHEHandle) (st : CoordState) :
    (refreshComplete cur tc ta r st).lastRefreshKey = st.lastRefreshKey ∧
    (refreshComplete cur tc ta r st).lastRefreshAt = st.lastRefreshAt ∧
    (refreshComplete cur tc ta r st).isRefreshing = false ∧
    (refreshComplete cur tc ta r st).isDecrypting = st.isDecrypting ∧
    (refreshComplete cur tc ta r st).isSubmitting = st.isSubmitting := by
  unfold refreshComplete
  cases r with
  | ok v => by_cases hc : cur.chainId = tc ∧ cur.contractAddress = some ta <;> simp [hc]
  | error e => simp

/-- A refresh call never touches the submit lock. -/
theorem refreshStart_isSubmitting (env : Env) (st : CoordState) :
    ((refreshStart env st).2).isSubmitting = st.isSubmitting := by
  unfold refreshStart
  split
  · rfl
  · split
    · split
      · rfl
      · split
        · rfl
        · rfl
    · rfl

/-- The wait loop performs at most `fuel` polls. -/
theorem waitPolls_le (fuel : Nat) : ∀ f : Nat → Bool, waitPolls f fuel ≤ fuel := by
  induction fuel with
  | zero => intro f; simp [waitPolls]
  | succ n ih =>
    intro f
    unfold waitPolls
    by_cases hf : f 0 = true
    · rw [if_pos hf]
      have := ih (fun k => f (k + 1))
      omega
    · rw [if_neg hf]
      exact Nat.zero_le _

/-! ### Claim theorems -/

/-- C1, counterexample: submitting 2^31 twice leaves an encrypted aggregate
that decrypts to 0, not to the sum 2^32 — `FHE.add` on `euint32` wraps, so
"the decrypted aggregate equals s1+...+sn" fails as stated. -/
theorem c1_total_wraps_counterexample :
    getEncryptedTotalScore (submitSeq 5 [wBigPayload, wBigPayload] LedgerState.init) 5 =
      some 0 ∧
    wBigPayload.score + wBigPayload.score = 2 ^ 32 ∧ (0 : Nat) ≠ 2 ^ 32 := by
  decide

/-- C1, amended: for a participant `p` submitting scores s1..sn (n ≥ 1) in
sequence from a fresh ledger, the decrypted aggregate equals the sum of the
32-bit-reduced scores modulo 2^32 (each input is a `euint32`, and `FHE.add`
wraps), and `gamesPlayed` equals n modulo 2^256 (the stats update is
`unchecked`) — equal to Σsi and n whenever they fit those widths. -/
theorem c1_submit_seq_aggregate (p : Addr) (x : SubmitPayload) (xs : List SubmitPayload) :
    getEncryptedTotalScore (submitSeq p (x :: xs) LedgerState.init) p =
      some ((((x :: xs).map (fun q => q.score % U32)).sum) % U32) ∧
    (getPlayerStats (submitSeq p (x :: xs) LedgerState.init) p).numGames =
      (x :: xs).length % U256 := by
  have hstep : submitSeq p (x :: xs) LedgerState.init =
      submitSeq p xs
        (submitResult p x.score x.resultHash x.resultCID x.scorePublic x.now
          LedgerState.init).2 := by
    simp [submitSeq, List.foldl]
  have hU32 : 0 < U32 := by norm_num [U32]
  have hU256 : 0 < U256 := by norm_num [U256]
  have ht1 : ((submitResult p x.score x.resultHash x.resultCID x.scorePublic x.now
      LedgerState.init).2).encryptedTotalScoreByPlayer p = some (x.score % U32) := by
    simp [submitResult, LedgerState.init, Nat.mod_eq_of_lt (Nat.mod_lt x.score hU32)]
  have hg1 : (((submitResult p x.score x.resultHash x.resultCID x.scorePublic x.now
      LedgerState.init).2).playerStats p).numGames = 1 % U256 := by
    simp [submitResult, LedgerState.init, PlayerStats.empty]
  obtain ⟨h1, h2⟩ := submitSeq_totals p xs _ (x.score % U32) (1 % U256) ht1
    (Nat.mod_lt x.score hU32) hg1 (Nat.mod_lt 1 hU256)
  refine ⟨?_, ?_⟩
  · rw [hstep, getEncryptedTotalScore, h1, List.map_cons, List.sum_cons]
  · rw [hstep, getPlayerStats, h2, Nat.mod_add_mod, List.length_cons, add_comm 1 xs.length]

/-- C3: a claim already true makes `claimBadge` revert with `AlreadyClaimed`
(the revert leaves all storage unchanged); a successful claim requires the
bit to have been false and the badge predicate to hold over the owner's
current stats, and sets it; and no trace of ledger transactions ever clears a
set claim bit. -/
theorem c3_claimBadge_set_exactly_once (b : Nat) (a : Addr) (now : Nat) (st : LedgerState) :
    (st.badgeClaimed b a = true →
      claimBadge b a now st = Except.error ClaimError.alreadyClaimed) ∧
    (∀ st', claimBadge b a now st = Except.ok st' →
      st.badgeClaimed b a = false ∧
      badgeEligible b (st.playerStats a) now = some true ∧
      st'.badgeClaimed b a = true) ∧
    (∀ ops : List LedgerOp, st.badgeClaimed b a = true →
      (st.exec ops).badgeClaimed b a = true) := by
  refine ⟨?_, ?_, ?_⟩
  · intro h
    unfold claimBadge
    rw [if_pos h]
  · intro st' h
    obtain ⟨hfalse, helig, hst⟩ := claimBadge_ok_inv h
    refine ⟨hfalse, helig, ?_⟩
    subst hst
    simp
  · intro ops h
    exact exec_preserves_badgeClaimed ops st h

/-- C3 witness: for player 5 with one submission, badge 1 is claimable once;
the second claim reverts with `AlreadyClaimed`, and the bit survives a
further transaction. -/
theorem c3_claimBadge_set_exactly_once_witness :
    claimBadge 1 5 100 wStClaimed = Except.error ClaimError.alreadyClaimed ∧
    (wStFresh.badgeClaimed 1 5 = false ∧
      badgeEligible 1 (wStFresh.playerStats 5) 100 = some true ∧
      wStClaimed.badgeClaimed 1 5 = true) ∧
    (wStClaimed.exec [LedgerOp.updatePool 9 "p" 1]).badgeClaimed 1 5 = true := by
  refine ⟨(c3_claimBadge_set_exactly_once 1 5 100 wStClaimed).1 (by decide),
    (c3_claimBadge_set_exactly_once 1 5 100 wStFresh).2.1 wStClaimed rfl,
    (c3_claimBadge_set_exactly_once 1 5 100 wStClaimed).2.2
      [LedgerOp.updatePool 9 "p" 1] (by decide)⟩

/-- C7: for an owner who has not yet claimed badge 4, `claimBadge(4)` reverts
with `ConditionsNotMet` whenever `numGames ≥ 3` but `lastPlayedAt` is more
than 7 days before `now`, and succeeds exactly at the boundary
`lastPlayedAt + 7 days = now` when `numGames ≥ 3`. -/
theorem c7_badge4_boundary (a : Addr) (now : Nat) (st : LedgerState)
    (hnc : st.badgeClaimed 4 a = false) :
    ((st.playerStats a).numGames ≥ 3 →
      (st.playerStats a).lastPlayedAt + 7 * secondsPerDay < now →
      claimBadge 4 a now st = Except.error ClaimError.conditionsNotMet) ∧
    ((st.playerStats a).numGames ≥ 3 →
      (st.playerStats a).lastPlayedAt + 7 * secondsPerDay = now →
      ∃ st', claimBadge 4 a now st = Except.ok st' ∧ st'.badgeClaimed 4 a = true) := by
  constructor
  · intro hgames hlate
    have hlt : ¬((st.playerStats a).lastPlayedAt + 7 * secondsPerDay ≥ now) := by omega
    have he : badgeEligible 4 (st.playerStats a) now = some false := by
      simp [badgeEligible, hlt]
    unfold claimBadge
    rw [if_neg (show ¬(st.badgeClaimed 4 a = true) by simp [hnc]), he]
    rfl
  · intro hgames hboundary
    have hle : (st.playerStats a).lastPlayedAt + 7 * secondsPerDay ≥ now := by omega
    have he : badgeEligible 4 (st.playerStats a) now = some true := by
      simp [badgeEligible, hgames, hle]
    unfold claimBadge
    rw [if_neg (show ¬(st.badgeClaimed 4 a = true) by simp [hnc]), he]
    exact ⟨_, rfl, by simp⟩

/-- C7 witness: with 3 games last played at time 0, badge 4 reverts at
`now = 7 days + 1` and succeeds at `now = 7 days`. -/
theorem c7_badge4_boundary_witness :
    claimBadge 4 5 (7 * secondsPerDay + 1) wStats4 =
      Except.error ClaimError.conditionsNotMet ∧
    ∃ st', claimBadge 4 5 (7 * secondsPerDay) wStats4 = Except.ok st' ∧
      st'.badgeClaimed 4 5 = true := by
  refine ⟨(c7_badge4_boundary 5 (7 * secondsPerDay + 1) wStats4 (by decide)).1
      (by decide) (by decide),
    (c7_badge4_boundary 5 (7 * secondsPerDay) wStats4 (by decide)).2
      (by decide) (by decide)⟩

/-- C9: `updateQuestionPool` leaves every piece of contract storage
unchanged — it only appends a `QuestionPoolUpdated` event — and its behaviour
is independent of the caller (no access control). -/
theorem c9_updateQuestionPool_frame (c c' : Addr) (cid : String) (v : Nat)
    (st : LedgerState) :
    (updateQuestionPool c cid v st).nextResultId = st.nextResultId ∧
    (updateQuestionPool c cid v st).encryptedTotalScoreByPlayer =
      st.encryptedTotalScoreByPlayer ∧
    (updateQuestionPool c cid v st).encryptedScoreByResultId =
      st.encryptedScoreByResultId ∧
    (updateQuestionPool c cid v st).playerStats = st.playerStats ∧
    (updateQuestionPool c cid v st).badgeClaimed = st.badgeClaimed ∧
    (updateQuestionPool c cid v st).events =
      st.events ++ [LedgerEvent.questionPoolUpdated cid v] ∧
    updateQuestionPool c cid v st = updateQuestionPool c' cid v st := by
  simp [updateQuestionPool]

/-- C2, counterexample: a refresh read is issued under signer 20, the signer
changes to 21 (same chain, same contract address) before the read completes,
yet the completion overwrites `handle` with the stale result and clears
`clear` — the refresh completion check compares only chain id and contract
address, not the signer. -/
theorem c2_refresh_signer_change_counterexample :
    refreshStart wEnv0 wSt0 = (RefreshStart.reading (some 31337) 10 20, wStReading) ∧
    wEnv0.signerAddress = some 20 ∧
    wEnvSignerChanged.signerAddress = some 21 ∧
    wEnvSignerChanged.chainId = wEnv0.chainId ∧
    wEnvSignerChanged.contractAddress = wEnv0.contractAddress ∧
    (refreshComplete wEnvSignerChanged (some 31337) 10 (Except.ok (some 7))
        wStReading).handle = some (some 7) ∧
    wSt0.handle = some (some 5) ∧
    (refreshComplete wEnvSignerChanged (some 31337) 10 (Except.ok (some 7))
        wStReading).clear = none ∧
    wSt0.clear = some 5 := by
  decide

/-- C2, amended: a decrypt result is discarded whenever the captured chain
id, contract address or signer differs from the current context at either
staleness check, and decrypt never writes `handle`; a refresh result is
discarded when the chain id or contract address changed at completion, but a
signer-only change is not detected: the stale handle is applied whenever
chain and address still match. -/
theorem c2_staleness_discard_amended (cur envS envD : Env) (tc : Option Nat)
    (ta ts : Addr) (v : FHEHandle) (r : Except String FHEHandle)
    (sig : Except String Bool) (dec : Except String Nat) (st : CoordState) :
    ((cur.chainId ≠ tc ∨ cur.contractAddress ≠ some ta) →
      (refreshComplete cur tc ta r st).handle = st.handle ∧
      (refreshComplete cur tc ta r st).clear = st.clear ∧
      (refreshComplete cur tc ta r st).isRefreshing = false) ∧
    (cur.chainId = tc → cur.contractAddress = some ta →
      (refreshComplete cur tc ta (Except.ok v) st).handle = some v) ∧
    ((decryptRun tc ta ts envS envD sig dec st).handle = st.handle) ∧
    (isStaleCtx tc ta ts envD = true →
      (decryptRun tc ta ts envS envD sig dec st).clear = st.clear ∧
      (decryptRun tc ta ts envS envD sig dec st).isDecrypting = false) ∧
    (isStaleCtx tc ta ts envS = true →
      (decryptRun tc ta ts envS envD sig dec st).clear = st.clear) := by
  refine ⟨?_, ?_, ?_, ?_, ?_⟩
  · intro hne
    have hcond : ¬(cur.chainId = tc ∧ cur.contractAddress = some ta) := by tauto
    cases r with
    | ok v' => simp [refreshComplete, hcond]
    | error e => simp [refreshComplete]
  · intro h1 h2
    simp [refreshComplete, h1, h2]
  · cases sig with
    | error e => simp [decryptRun]
    | ok b =>
      cases b with
      | false => simp [decryptRun]
      | true =>
        by_cases hS : isStaleCtx tc ta ts envS = true
        · simp [decryptRun, hS]
        · cases dec with
          | error e => simp [decryptRun, hS]
          | ok v' =>
            by_cases hD : isStaleCtx tc ta ts envD = true
            · simp [decryptRun, hS, hD]
            · simp [decryptRun, hS, hD]
  · intro hD
    cases sig with
    | error e => simp [decryptRun]
    | ok b =>
      cases b with
      | false => simp [decryptRun]
      | true =>
        by_cases hS : isStaleCtx tc ta ts envS = true
        · simp [decryptRun, hS]
        · cases dec with
          | error e => simp [decryptRun, hS]
          | ok v' => simp [decryptRun, hS, hD]
  · intro hS
    cases sig with
    | error e => simp [decryptRun]
    | ok b =>
      cases b with
      | false => simp [decryptRun]
      | true => simp [decryptRun, hS]

/-- C2 amended witness: a contract-address change discards a refresh result;
an unchanged context applies it; a signer change discards a decrypt result. -/
theorem c2_staleness_discard_amended_witness :
    (refreshComplete { wEnv0 with contractAddress := some 11 } (some 31337) 10
        (Except.ok (some 7)) wSt0).handle = wSt0.handle ∧
    (refreshComplete wEnv0 (some 31337) 10 (Except.ok (some 7)) wSt0).handle =
      some (some 7) ∧
    (decryptRun (some 31337) 10 20 wEnv0 wEnvSignerChanged (Except.ok true)
        (Except.ok 42) wSt0).clear = wSt0.clear := by
  refine ⟨((c2_staleness_discard_amended { wEnv0 with contractAddress := some 11 }
      wEnv0 wEnv0 (some 31337) 10 20 (some 7) (Except.ok (some 7)) (Except.ok true)
      (Except.ok 42) wSt0).1 (Or.inr (by decide))).1,
    (c2_staleness_discard_amended wEnv0 wEnv0 wEnv0 (some 31337) 10 20 (some 7)
      (Except.ok (some 7)) (Except.ok true) (Except.ok 42) wSt0).2.1 (by decide)
      (by decide),
    ((c2_staleness_discard_amended wEnv0 wEnv0 wEnvSignerChanged (some 31337) 10 20
      (some 7) (Except.ok (some 7)) (Except.ok true) (Except.ok 42) wSt0).2.2.2.1
      (by decide)).1⟩

/-- C4: if a refresh call issued a ledger read, then a second refresh call
less than 2000 ms later, under the same contract address and signer (with the
provider still available), issues no read: it returns at the entry guard
while the first is still in flight, or is throttled once the first has
completed — so the pair issues exactly one read. -/
theorem c4_refresh_throttle_single_read (env0 env1 cur : Env)
    (st0 st1 st2 : CoordState) (tc : Option Nat) (ta ts : Addr)
    (r : Except String FHEHandle)
    (h1 : refreshStart env0 st0 = (RefreshStart.reading tc ta ts, st1))
    (h2 : st2 = st1 ∨ st2 = refreshComplete cur tc ta r st1)
    (haddr : env1.contractAddress = env0.contractAddress)
    (hsig : env1.signerAddress = env0.signerAddress)
    (hprov : env1.hasReadonlyProvider = true)
    (hmono : env0.now ≤ env1.now)
    (hwin : env1.now < env0.now + refreshThrottleMs) :
    (∀ (tc' : Option Nat) (ta' ts' : Addr),
      (refreshStart env1 st2).1 ≠ RefreshStart.reading tc' ta' ts') ∧
    ((refreshStart env1 st2).1 = RefreshStart.busy ∨
      (refreshStart env1 st2).1 = RefreshStart.throttled) := by
  obtain ⟨hr0, hca0, hsa0, htc, hp0, hst1⟩ := refreshStart_reading_inv h1
  have hres : (refreshStart env1 st2).1 = RefreshStart.busy ∨
      (refreshStart env1 st2).1 = RefreshStart.throttled := by
    rcases h2 with rfl | rfl
    · left
      simp [refreshStart, hst1]
    · right
      obtain ⟨hk, hat, hrf, -, -⟩ := refreshComplete_locks cur tc ta r st1
      have hkey : (refreshComplete cur tc ta r st1).lastRefreshKey = some (ta, ts) := by
        rw [hk, hst1]
      have htime : (refreshComplete cur tc ta r st1).lastRefreshAt = env0.now := by
        rw [hat, hst1]
      unfold refreshStart
      rw [if_neg (by simp [hrf])]
      simp only [haddr, hca0, hsig, hsa0]
      rw [if_neg (by simp [hprov])]
      rw [if_pos ⟨hkey, by rw [htime]; unfold refreshThrottleMs at hwin ⊢; omega⟩]
  refine ⟨?_, hres⟩
  intro tc' ta' ts' hcontra
  rcases hres with h | h <;> rw [hcontra] at h <;> simp at h

/-- C4 witness: the first refresh from `wEnv0` issues a read; a second one
1500 ms later, after the first completed, is throttled. -/
theorem c4_refresh_throttle_single_read_witness :
    (∀ (tc' : Option Nat) (ta' ts' : Addr),
      (refreshStart wEnvLater wStDone).1 ≠ RefreshStart.reading tc' ta' ts') ∧
    ((refreshStart wEnvLater wStDone).1 = RefreshStart.busy ∨
      (refreshStart wEnvLater wStDone).1 = RefreshStart.throttled) :=
  c4_refresh_throttle_single_read wEnv0 wEnvLater wEnv0 wSt0 wStReading wStDone
    (some 31337) 10 20 (Except.ok (some 9)) (by decide) (Or.inr (by decide))
    (by decide) (by decide) (by decide) (by decide) (by decide)

/-- C5: decrypt's wait-for-refresh polls at 100 ms for at most 10 s
(`fuel = timeout / interval` polls), and the entry guards that follow never
read the refresh lock: their outcome is invariant under `isRefreshing`,
`AlreadyInProgress` is reported exactly when another decrypt is in flight,
and with the lock free and the context ready a missing or all-zero handle
yields `NoCiphertext`. -/
theorem c5_decrypt_wait_and_guards :
    (∀ f : Nat → Bool,
      waitPolls f (decryptWaitTimeoutMs / decryptPollIntervalMs) *
        decryptPollIntervalMs ≤ decryptWaitTimeoutMs) ∧
    (∀ (env : Env) (st : CoordState) (b : Bool),
      (decryptGuards env { st with isRefreshing := b }).1 =
        (decryptGuards env st).1) ∧
    (∀ (env : Env) (st : CoordState),
      (decryptGuards env st).1 = DecryptEntry.alreadyInProgress ↔
        st.isDecrypting = true) ∧
    (∀ (env : Env) (st : CoordState) (ca sa : Addr),
      st.isDecrypting = false → env.contractAddress = some ca →
      env.signerAddress = some sa → env.hasInstance = true →
      (st.handle = none ∨ st.handle = some none) →
      (decryptGuards env st).1 = DecryptEntry.noCiphertext) := by
  refine ⟨?_, ?_, ?_, ?_⟩
  · intro f
    calc waitPolls f (decryptWaitTimeoutMs / decryptPollIntervalMs) *
          decryptPollIntervalMs
        ≤ (decryptWaitTimeoutMs / decryptPollIntervalMs) * decryptPollIntervalMs :=
          Nat.mul_le_mul_right _ (waitPolls_le _ f)
      _ ≤ decryptWaitTimeoutMs := Nat.div_mul_le_self _ _
  · intro env st b
    by_cases hd : st.isDecrypting = true
    · simp [decryptGuards, hd]
    · cases hco : env.contractAddress with
      | none =>
        cases hso : env.signerAddress with
        | none => simp [decryptGuards, hd, hco, hso]
        | some sa => simp [decryptGuards, hd, hco, hso]
      | some ca =>
        cases hso : env.signerAddress with
        | none => simp [decryptGuards, hd, hco, hso]
        | some sa =>
          by_cases hin : env.hasInstance = false
          · simp [decryptGuards, hd, hco, hso, hin]
          · cases hh : st.handle with
            | none => simp [decryptGuards, hd, hco, hso, hin, hh]
            | some h =>
              by_cases hz : h = none
              · simp [decryptGuards, hd, hco, hso, hin, hh, hz]
              · simp [decryptGuards, hd, hco, hso, hin, hh, hz]
  · intro env st
    by_cases hd : st.isDecrypting = true
    · simp [decryptGuards, hd]
    · constructor
      · intro habs
        exfalso
        unfold decryptGuards at habs
        rw [if_neg hd] at habs
        split at habs
        · split at habs
          · simp at habs
          · split at habs
            · simp at habs
            · split at habs
              · simp at habs
              · simp at habs
        · simp at habs
      · intro habs
        exact absurd habs hd
  · intro env st ca sa hd hca hsa hin hh
    unfold decryptGuards
    rw [if_neg (by simp [hd])]
    simp only [hca, hsa]
    rw [if_neg (by simp [hin])]
    rcases hh with h0 | h0 <;> simp [h0]

/-- C5 witness: the poll bound at an always-busy refresh lock; guard
invariance under the refresh flag; `AlreadyInProgress` iff another decrypt;
`NoCiphertext` on the all-zero handle. -/
theorem c5_decrypt_wait_and_guards_witness :
    (waitPolls (fun _ => true) (decryptWaitTimeoutMs / decryptPollIntervalMs) *
      decryptPollIntervalMs ≤ decryptWaitTimeoutMs) ∧
    (decryptGuards wEnv0 { wStDone with isRefreshing := true }).1 =
      (decryptGuards wEnv0 wStDone).1 ∧
    ((decryptGuards wEnv0 wStDone).1 = DecryptEntry.alreadyInProgress ↔
      wStDone.isDecrypting = true) ∧
    (decryptGuards wEnv0 wStZero).1 = DecryptEntry.noCiphertext :=
  ⟨c5_decrypt_wait_and_guards.1 (fun _ => true),
   c5_decrypt_wait_and_guards.2.1 wEnv0 wStDone true,
   c5_decrypt_wait_and_guards.2.2.1 wEnv0 wStDone,
   c5_decrypt_wait_and_guards.2.2.2 wEnv0 wStZero 10 20 (by decide) (by decide)
     (by decide) (by decide) (Or.inr (by decide))⟩

/-- C6: an account with no submissions keeps the all-zero handle in
`getEncryptedTotalScore` across any trace; refreshing such an account stores
the zero handle marker; and decrypt's guards then fail with `NoCiphertext`,
changing only the message — in particular the result is not `proceed`, the
only outcome that goes on to request a capability from the signer. -/
theorem c6_zero_handle_no_ciphertext (ops : List LedgerOp) (a : Addr)
    (hops : ∀ op ∈ ops, op.submitter ≠ some a)
    (cur env : Env) (tc : Option Nat) (ta ca sa : Addr) (st : CoordState) :
    getEncryptedTotalScore (LedgerState.init.exec ops) a = none ∧
    (cur.chainId = tc → cur.contractAddress = some ta →
      (refreshComplete cur tc ta (Except.ok none) st).handle = some none ∧
      (refreshComplete cur tc ta (Except.ok none) st).message =
        msgNoHandleAfterRefresh) ∧
    (st.isDecrypting = false → env.contractAddress = some ca →
      env.signerAddress = some sa → env.hasInstance = true →
      (st.handle = none ∨ st.handle = some none) →
      decryptGuards env st =
        (DecryptEntry.noCiphertext, { st with message := msgNoCiphertext })) := by
  refine ⟨?_, ?_, ?_⟩
  · exact exec_no_submit_total ops LedgerState.init hops rfl
  · intro h1 h2
    simp [refreshComplete, h1, h2]
  · intro hd hca hsa hin hh
    unfold decryptGuards
    rw [if_neg (by simp [hd])]
    simp only [hca, hsa]
    rw [if_neg (by simp [hin])]
    rcases hh with h0 | h0 <;> simp [h0]

/-- C6 witness: after a trace with no submission by player 5, the aggregate
handle is all-zero; a refresh stores the zero marker; decrypt guards report
`NoCiphertext` without taking the lock. -/
theorem c6_zero_handle_no_ciphertext_witness :
    getEncryptedTotalScore (LedgerState.init.exec wOpsNo5) 5 = none ∧
    (refreshComplete wEnv0 (some 31337) 10 (Except.ok none) wStZero).handle =
      some none ∧
    decryptGuards wEnv0 wStZero =
      (DecryptEntry.noCiphertext, { wStZero with message := msgNoCiphertext }) := by
  have h := c6_zero_handle_no_ciphertext wOpsNo5 5 (by decide) wEnv0 wEnv0
    (some 31337) 10 10 20 wStZero
  exact ⟨h.1, (h.2.1 (by decide) (by decide)).1,
    h.2.2 (by decide) (by decide) (by decide) (by decide) (Or.inr (by decide))⟩

/-- C8: submit fails with `AlreadyInProgress` exactly when a refresh or
another submit is in flight (leaving the state untouched), fails with
`NotReady` when contract address, FHEVM instance or signer is missing
(likewise untouched, the lock never taken), and in every execution entered
with the lock free — whatever the outcomes of the suspending steps — the
submit lock is released at the end. -/
theorem c8_submit_guards_and_lock_release (env e1 e2 : Env)
    (enc : Except String Unit) (tx : Except String String) (w : Except String Nat)
    (st : CoordState) :
    (st.isRefreshing = true ∨ st.isSubmitting = true →
      submitCore env e1 e2 enc tx w st =
        (Except.error SubmitError.alreadyInProgress, st)) ∧
    (st.isRefreshing = false → st.isSubmitting = false →
      (env.contractAddress = none ∨ env.hasInstance = false ∨
        env.signerAddress = none) →
      submitCore env e1 e2 enc tx w st = (Except.error SubmitError.notReady, st)) ∧
    (st.isRefreshing = false → st.isSubmitting = false →
      ((submitCore env e1 e2 enc tx w st).2).isSubmitting = false) := by
  refine ⟨?_, ?_, ?_⟩
  · intro h
    unfold submitCore
    rw [if_pos h]
  · intro h1 h2 h3
    cases hco : env.contractAddress with
    | none => simp [submitCore, h1, h2, hco]
    | some ca =>
      cases hso : env.signerAddress with
      | none => simp [submitCore, h1, h2, hco, hso]
      | some sa =>
        rcases h3 with hca | hin | hsa
        · rw [hco] at hca; exact absurd hca (by simp)
        · simp [submitCore, h1, h2, hco, hso, hin]
        · rw [hso] at hsa; exact absurd hsa (by simp)
  · intro h1 h2
    cases hco : env.contractAddress with
    | none => simp [submitCore, h1, h2, hco]
    | some ca =>
      cases hso : env.signerAddress with
      | none => simp [submitCore, h1, h2, hco, hso]
      | some sa =>
        by_cases hin : env.hasInstance = false
        · simp [submitCore, h1, h2, hco, hso, hin]
        · cases enc with
          | error e => simp [submitCore, h1, h2, hco, hso, hin]
          | ok u =>
            by_cases hstale : isStaleCtx env.chainId ca sa e1 = true
            · simp [submitCore, h1, h2, hco, hso, hin, hstale]
            · cases tx with
              | error e => simp [submitCore, h1, h2, hco, hso, hin, hstale]
              | ok txh =>
                cases w with
                | error e => simp [submitCore, h1, h2, hco, hso, hin, hstale]
                | ok status => simp [submitCore, h1, h2, hco, hso, hin, hstale]

/-- C8 witness: a submit entered with a refresh in flight fails
`AlreadyInProgress`; with the FHEVM instance missing it fails `NotReady`;
and a full successful run ends with the submit lock released. -/
theorem c8_submit_guards_and_lock_release_witness :
    submitCore wEnv0 wEnv0 wEnv0 (Except.ok ()) (Except.ok ("0xabc"))
        (Except.ok 1) wStReading =
      (Except.error SubmitError.alreadyInProgress, wStReading) ∧
    submitCore { wEnv0 with hasInstance := false } wEnv0 wEnv0 (Except.ok ())
        (Except.ok ("0xabc")) (Except.ok 1) CoordState.init =
      (Except.error SubmitError.notReady, CoordState.init) ∧
    ((submitCore wEnv0 wEnv0 wEnv0 (Except.ok ()) (Except.ok ("0xabc"))
        (Except.ok 1) CoordState.init).2).isSubmitting = false :=
  ⟨(c8_submit_guards_and_lock_release wEnv0 wEnv0 wEnv0 (Except.ok ())
      (Except.ok ("0xabc")) (Except.ok 1) wStReading).1 (Or.inl (by decide)),
   (c8_submit_guards_and_lock_release { wEnv0 with hasInstance := false } wEnv0
      wEnv0 (Except.ok ()) (Except.ok ("0xabc")) (Except.ok 1) CoordState.init).2.1
      (by decide) (by decide) (Or.inr (Or.inl (by decide))),
   (c8_submit_guards_and_lock_release wEnv0 wEnv0 wEnv0 (Except.ok ())
      (Except.ok ("0xabc")) (Except.ok 1) CoordState.init).2.2 (by decide)
      (by decide)⟩

/-- C10: `decryptHandle` leaves the hook state untouched (no lock flags, no
`handle`/`clear`/`message` writes), its behaviour is independent of the
handle argument (no zero-handle or staleness check), it requests a
decryption capability whenever the context is ready — also for the all-zero
handle — and with a signature and a successful external decryption it
returns the decrypted value. -/
theorem c10_decryptHandle_frame (env : Env) (h : FHEHandle)
    (sig : Except String Bool) (dec : Except String Nat) (st : CoordState) :
    (decryptHandle env h sig dec st).2 = st ∧
    decryptHandle env h sig dec st = decryptHandle env none sig dec st ∧
    (∀ ca sa : Addr, env.contractAddress = some ca → env.signerAddress = some sa →
      env.hasInstance = true → ((decryptHandle env h sig dec st).1).2 = true) ∧
    (∀ (v : Nat) (ca sa : Addr), env.contractAddress = some ca →
      env.signerAddress = some sa → env.hasInstance = true →
      sig = Except.ok true → dec = Except.ok v →
      ((decryptHandle env h sig dec st).1).1 = Except.ok v) := by
  refine ⟨?_, rfl, ?_, ?_⟩
  · cases hco : env.contractAddress with
    | none => simp [decryptHandle, hco]
    | some ca =>
      cases hso : env.signerAddress with
      | none => simp [decryptHandle, hco, hso]
      | some sa =>
        by_cases hin : env.hasInstance = false
        · simp [decryptHandle, hco, hso, hin]
        · cases sig with
          | error e => simp [decryptHandle, hco, hso, hin]
          | ok b =>
            cases b with
            | false => simp [decryptHandle, hco, hso, hin]
            | true =>
              cases dec with
              | error e => simp [decryptHandle, hco, hso, hin]
              | ok v => simp [decryptHandle, hco, hso, hin]
  · intro ca sa hca hsa hins
    cases sig with
    | error e => simp [decryptHandle, hca, hsa, hins]
    | ok b =>
      cases b with
      | false => simp [decryptHandle, hca, hsa, hins]
      | true =>
        cases dec with
        | error e => simp [decryptHandle, hca, hsa, hins]
        | ok v => simp [decryptHandle, hca, hsa, hins]
  · intro v ca sa hca hsa hins hsig hdec
    simp [decryptHandle, hca, hsa, hins, hsig, hdec]

/-- C10 witness: `decryptHandle` on the all-zero handle, with a ready
context, leaves the state unchanged, requests a capability, and returns the
externally decrypted value. -/
theorem c10_decryptHandle_frame_witness :
    (decryptHandle wEnv0 none (Except.ok true) (Except.ok 42) wSt0).2 = wSt0 ∧
    ((decryptHandle wEnv0 none (Except.ok true) (Except.ok 42) wSt0).1).2 = true ∧
    ((decryptHandle wEnv0 none (Except.ok true) (Except.ok 42) wSt0).1).1 =
      Except.ok 42 :=
  ⟨(c10_decryptHandle_frame wEnv0 none (Except.ok true) (Except.ok 42) wSt0).1,
   (c10_decryptHandle_frame wEnv0 none (Except.ok true) (Except.ok 42)
      wSt0).2.2.1 10 20 (by decide) (by decide) (by decide),
   (c10_decryptHandle_frame wEnv0 none (Except.ok true) (Except.ok 42)
      wSt0).2.2.2 42 10 20 (by decide) (by decide) (by decide) rfl rfl⟩

end GeoChain
